import Mathlib

/-!
Verification of the decision core of `scanner_cli` (a barcode-routing CLI):
the input sanitizer, the restricted arithmetic evaluator, the mode resolver
and the session state machine, shallowly embedded from
`src/scanner_cli/main.py` and `src/scanner_cli/config.py`.

Python strings are modelled as `List Char`; Python `dict` iteration order
(insertion order) is modelled by `List`; the live idle timer is modelled as
`Option Nat` holding a generation id, a fresh id per scheduled timer.
-/

namespace ScannerCLI

/-- Python strings, modelled as lists of characters. -/
abbrev Str := List Char

/-! ## Sanitizer (`sanitize_input`, main.py lines 103-111)

the ANSI CSI regex (escape, literal bracket, a run of bytes 0x30-0x3F, a run of bytes 0x20-0x2F, one final byte 0x40-0x7E); `sanitize_input`
substitutes every match with the empty string, then removes every remaining
escape character. -/

/-- The regex parameter-byte class (bytes 0x30-0x3F). -/
def isCsiParam (c : Char) : Bool := 0x30 ≤ c.toNat && c.toNat ≤ 0x3F

/-- The regex intermediate-byte class (bytes 0x20-0x2F). -/
def isCsiInter (c : Char) : Bool := 0x20 ≤ c.toNat && c.toNat ≤ 0x2F

/-- The regex final-byte class (bytes 0x40-0x7E). -/
def isCsiFinal (c : Char) : Bool := 0x40 ≤ c.toNat && c.toNat ≤ 0x7E

/-- The escape character `\x1b`. -/
def escChar : Char := '\x1b'

/-- Given the characters after an escape character, try to match the rest of
the CSI pattern (a literal bracket, parameter bytes, intermediate bytes, one final byte); on success return the remainder of the
input after the match.  The three character classes are disjoint, so the
regex's greedy matching never needs to backtrack and maximal `dropWhile` runs
are faithful. -/
def matchCSI : Str → Option Str
  | c :: rest =>
    if c = '[' then
      match (rest.dropWhile isCsiParam).dropWhile isCsiInter with
      | d :: r3 => if isCsiFinal d then some r3 else none
      | [] => none
    else none
  | [] => none

theorem matchCSI_length {l r : Str} (h : matchCSI l = some r) : r.length < l.length := by
  match l with
  | [] => simp [matchCSI] at h
  | c :: rest =>
    simp only [matchCSI] at h
    split at h
    · split at h
      next d r3 heq =>
        split at h
        · cases h
          have h1 : ((rest.dropWhile isCsiParam).dropWhile isCsiInter).length ≤ rest.length :=
            le_trans (List.IsSuffix.length_le (List.dropWhile_suffix _))
              (List.IsSuffix.length_le (List.dropWhile_suffix _))
          have h2 : r.length + 1 = ((rest.dropWhile isCsiParam).dropWhile isCsiInter).length := by
            rw [heq]; simp
          simp only [List.length_cons]
          omega
        · cases h
      next heq => cases h
    · cases h

/-- One left-to-right pass of `_ANSI_CSI_RE.sub("", value)`: at each escape
character, if the CSI pattern matches, drop the whole match and continue after
it (matches are non-overlapping); otherwise keep scanning.  Fuelled for
structural recursion; each step consumes at least one character, so fuel
`length` suffices and the fuel-out branch is never reached. -/
def csiSubAux : Nat → Str → Str
  | 0, l => l
  | _ + 1, [] => []
  | fuel + 1, c :: rest =>
    if c = escChar then
      match matchCSI rest with
      | some r => csiSubAux fuel r
      | none => c :: csiSubAux fuel rest
    else c :: csiSubAux fuel rest

/-- The CSI substitution pass on a whole string. -/
def csiSub (l : Str) : Str := csiSubAux l.length l

/-- `cleaned.replace("\x1b", "")`: remove every remaining escape character. -/
def removeEsc (l : Str) : Str := l.filter (fun c => c != escChar)

/-- `sanitize_input` (main.py lines 106-111). -/
def sanitize_input (value : Str) : Str :=
  if value = [] then value else removeEsc (csiSub value)

theorem csiSubAux_of_no_esc :
    ∀ (fuel : Nat) (l : Str), (∀ c ∈ l, c ≠ escChar) → csiSubAux fuel l = l
  | 0, _ => fun _ => rfl
  | _ + 1, [] => fun _ => rfl
  | fuel + 1, c :: rest => fun h => by
    have hc : c ≠ escChar := h c (List.mem_cons_self _ _)
    simp only [csiSubAux, if_neg hc]
    rw [csiSubAux_of_no_esc fuel rest (fun d hd => h d (List.mem_cons_of_mem _ hd))]

theorem csiSub_of_no_esc (l : Str) (h : ∀ c ∈ l, c ≠ escChar) : csiSub l = l :=
  csiSubAux_of_no_esc l.length l h

theorem removeEsc_no_esc (l : Str) : ∀ c ∈ removeEsc l, c ≠ escChar := by
  intro c hc
  have := List.of_mem_filter hc
  simpa using this

theorem removeEsc_of_no_esc (l : Str) (h : ∀ c ∈ l, c ≠ escChar) : removeEsc l = l := by
  apply List.filter_eq_self.mpr
  intro a ha
  simpa using h a ha

/-! ## Python `str.strip()` (default whitespace strip) -/

/-- The ASCII whitespace characters stripped by Python's `str.strip()`. -/
def isPySpace (c : Char) : Bool :=
  c = ' ' || c = '\t' || c = '\n' || c = '\x0b' || c = '\x0c' || c = '\r'

/-- Python `str.strip()`: drop whitespace from both ends. -/
def pyStrip (l : Str) : Str :=
  ((l.dropWhile isPySpace).reverse.dropWhile isPySpace).reverse

/-! ## Mode configuration (`config.py`)

`trigger` and `prefix_trigger` are `None`-able Python lists; `None` and `[]`
behave identically in every use (`if mode.trigger and barcode in
mode.trigger`), so both are modelled as `[]`. -/

structure Mode where
  name : String
  endpoint : String
  method : String
  enableInput : Bool
  trigger : List Str
  prefixTrigger : List Str
  stripPrefix : Bool
  timeout : Option Int
  evalMathops : Bool
  enableTriggerReq : Bool
deriving DecidableEq, Repr

/-- Pass 1 of `find_mode` (config.py lines 80-82): the first mode whose
`trigger` list contains the barcode. -/
def findTriggerMode : List Mode → Str → Option Mode
  | [], _ => none
  | m :: rest, barcode =>
    if m.trigger.contains barcode then some m else findTriggerMode rest barcode

/-- The inner loop of pass 2: does some prefix of `m` match? -/
def modePrefixMatch (m : Mode) (barcode : Str) : Bool :=
  m.prefixTrigger.any (fun p => p.isPrefixOf barcode)

/-- Pass 2 of `find_mode` (config.py lines 83-87): the first mode one of whose
`prefix_trigger` entries is a prefix of the barcode. -/
def findPrefixMode : List Mode → Str → Option Mode
  | [], _ => none
  | m :: rest, barcode =>
    if modePrefixMatch m barcode then some m else findPrefixMode rest barcode

/-- `find_mode` (config.py lines 79-88): exact triggers over all modes first,
then prefix triggers. -/
def find_mode (modes : List Mode) (barcode : Str) : Option Mode :=
  match findTriggerMode modes barcode with
  | some m => some m
  | none => findPrefixMode modes barcode

/-- How a token matched a mode. -/
inductive MatchKind where
  | triggerKind
  | prefixKind
deriving DecidableEq, Repr

/-- The main loop's classification of `find_mode`'s result (main.py lines
237-285): an exact trigger match is persistent; otherwise the first matching
prefix (in the mode's `prefix_trigger` order) gives an ephemeral match whose
residual token is the barcode with the prefix removed when `strip_prefix` is
set and the unchanged barcode otherwise. -/
def resolveToken (modes : List Mode) (barcode : Str) :
    Option (Mode × MatchKind × Str) :=
  match find_mode modes barcode with
  | none => none
  | some tm =>
    if tm.trigger.contains barcode then
      some (tm, MatchKind.triggerKind, barcode)
    else
      match tm.prefixTrigger.find? (fun p => p.isPrefixOf barcode) with
      | some p =>
        some (tm, MatchKind.prefixKind,
          if tm.stripPrefix then barcode.drop p.length else barcode)
      | none => none

/-! ## Session state machine (main.py lines 183-215 and 229-335)

`current_mode` and the pending `threading.Timer` are the session state.  A
live timer is modelled as `some id` where `id` is a generation counter, so
that a reschedule (cancel old, start new) is visible as a change of id. -/

structure SessionState where
  currentMode : Mode
  idleTimer : Option Nat
  nextId : Nat
deriving DecidableEq, Repr

/-- `cancel_timer` (main.py lines 188-192). -/
def cancel_timer (s : SessionState) : SessionState := { s with idleTimer := none }

/-- Python truthiness of `args.idle_timeout` (`None` and `0` are falsy). -/
def timeoutEnabled : Option Int → Bool
  | none => false
  | some n => n != 0

/-- Events the core emits via `log_event`/`console` during one step. -/
inductive Event where
  | modeSwitch (newMode : String) (trig : Str)
  | modeAutoRevert (toMode : String) (reason : String)
  | sent (mode : String) (barcode : Str)
  | httpFail (mode : String)
  | reqException (mode : String)
deriving DecidableEq, Repr

/-- The outcome of one `api.send` call: `resp.is_success`, a non-success
status, or a raised exception (caught by the surrounding `try`). -/
inductive Outcome where
  | success
  | httpFailure
  | raised
deriving DecidableEq, Repr

/-- The log/console events of one dispatch attempt (main.py 255-276 and
309-330): the session state is never touched here. -/
def dispatchEvents (m : Mode) (barcode : Str) : Outcome → List Event
  | Outcome.success => [Event.sent m.name barcode]
  | Outcome.httpFailure => [Event.httpFail m.name]
  | Outcome.raised => [Event.reqException m.name]

/-- `schedule_timeout` (main.py lines 204-215): no-op when no idle timeout is
configured; cancel when the current mode is the default; otherwise cancel the
pending timer and start a fresh one. -/
def schedule_timeout (idleTimeout : Option Int) (defaultMode : Mode)
    (s : SessionState) : SessionState :=
  if !timeoutEnabled idleTimeout then s
  else if s.currentMode.name = defaultMode.name then cancel_timer s
  else { s with idleTimer := some s.nextId, nextId := s.nextId + 1 }

/-- `_do_timeout` (main.py lines 194-202): under the mode lock, revert to the
default mode and emit `mode_auto_revert` only when the current mode differs
from the default at fire time. -/
def _do_timeout (defaultMode : Mode) (reason : String) (s : SessionState) :
    SessionState × List Event :=
  if s.currentMode.name ≠ defaultMode.name then
    ({ s with currentMode := defaultMode },
      [Event.modeAutoRevert defaultMode.name reason])
  else (s, [])

/-- One iteration of the main loop after a non-empty sanitized barcode
(main.py lines 237-335), as a function of the dispatch outcome `o`:
an exact trigger match switches `current_mode`, reschedules the timer and
optionally dispatches (`enable_trigger_req`); a prefix match dispatches under
the ephemeral mode and leaves the state alone (`if ephemeral: pass`); no match
dispatches under the current mode and then reschedules the timer. -/
def processToken (idleTimeout : Option Int) (defaultMode : Mode)
    (modes : List Mode) (s : SessionState) (barcode : Str) (o : Outcome) :
    SessionState × List Event :=
  match resolveToken modes barcode with
  | some (tm, MatchKind.triggerKind, _) =>
    let s1 := schedule_timeout idleTimeout defaultMode { s with currentMode := tm }
    if tm.enableTriggerReq then
      (s1, Event.modeSwitch tm.name barcode :: dispatchEvents tm barcode o)
    else
      (s1, [Event.modeSwitch tm.name barcode])
  | some (tm, MatchKind.prefixKind, residual) =>
    (s, dispatchEvents tm residual o)
  | none =>
    (schedule_timeout idleTimeout defaultMode s, dispatchEvents s.currentMode barcode o)

/-- One iteration of the main loop on a raw input line (main.py lines
229-335): strip, sanitize, and skip the line entirely when the result is
empty (`if not barcode: continue`). -/
def processLine (idleTimeout : Option Int) (defaultMode : Mode)
    (modes : List Mode) (s : SessionState) (line : Str) (o : Outcome) :
    SessionState × List Event :=
  let barcode := sanitize_input (pyStrip line)
  if barcode = [] then (s, [])
  else processToken idleTimeout defaultMode modes s barcode o

/-! ## Restricted expression evaluator (`_eval_mathops`, main.py lines 53-97)

Python numbers are modelled as `PyNum`: an `Int` for `int` literals/results
and a rational for `float` ones (exact rather than IEEE; no claim here
depends on rounding).  The allow-listed AST (`Expression`, `BinOp`,
`UnaryOp`, `Constant` with the arithmetic operators) is the `Expr` type, so
the `isinstance(node, allowed_nodes)` walk check holds by construction; the
literal-magnitude check of the same walk is `checkLiterals`.  `ast.parse` on
the guard-surviving fragment of the grammar is an executable lexer and
recursive-descent parser with Python's precedence (`**` right-associative and
binding tighter than unary minus on its left). -/

/-- A Python number: an `int`, or a `float` modelled as an exact rational. -/
inductive PyNum where
  | int (n : Int)
  | float (q : ℚ)
deriving DecidableEq, Repr

/-- View a number as a rational (Python's numeric coercion to `float`). -/
def toQ : PyNum → ℚ
  | PyNum.int n => (n : ℚ)
  | PyNum.float q => q

/-- Unary minus (`ast.USub`). -/
def pyNeg : PyNum → PyNum
  | PyNum.int n => PyNum.int (-n)
  | PyNum.float q => PyNum.float (-q)

/-- The allow-listed unary operators `UAdd`, `USub`. -/
inductive UOp where
  | uAdd
  | uSub
deriving DecidableEq, Repr

/-- The allow-listed binary operators. -/
inductive BOp where
  | add
  | sub
  | mul
  | div
  | floorDiv
  | mod
  | pow
deriving DecidableEq, Repr

/-- The allow-listed expression AST: exactly the node kinds `_eval_mathops`
accepts, so the node-kind walk check holds by construction. -/
inductive Expr where
  | const (v : PyNum)
  | unaryOp (op : UOp) (e : Expr)
  | binOp (op : BOp) (l : Expr) (r : Expr)
deriving DecidableEq, Repr

/-- Evaluation errors: each rejection or runtime fault of `_eval_mathops`
(every one is an `EvalError` to the caller, which catches any exception). -/
inductive EvalErr where
  | emptyExpr
  | disallowedChars
  | malformed
  | intTooLarge
  | floatTooLarge
  | zeroDiv
  | unsupportedOp
deriving DecidableEq, Repr

/-- Python `+`: `int + int` stays `int`, any `float` operand gives `float`. -/
def pyAdd : PyNum → PyNum → PyNum
  | PyNum.int a, PyNum.int b => PyNum.int (a + b)
  | a, b => PyNum.float (toQ a + toQ b)

/-- Python `-` on numbers. -/
def pySub : PyNum → PyNum → PyNum
  | PyNum.int a, PyNum.int b => PyNum.int (a - b)
  | a, b => PyNum.float (toQ a - toQ b)

/-- Python `*` on numbers. -/
def pyMul : PyNum → PyNum → PyNum
  | PyNum.int a, PyNum.int b => PyNum.int (a * b)
  | a, b => PyNum.float (toQ a * toQ b)

/-- The allow-listed binary operators on numbers, with Python's semantics:
true division always yields `float`; floor division and modulo follow the
divisor's sign (`Int.fdiv`/`Int.fmod`); `int ** int` with a non-negative
exponent stays `int`, with a negative exponent becomes `float`
(`ZeroDivisionError` on base 0); a `float` power with a non-integral exponent
is irrational in general and outside this rational model (`unsupportedOp`;
no claim exercises it). -/
def pyBin : BOp → PyNum → PyNum → Except EvalErr PyNum
  | BOp.add, a, b => Except.ok (pyAdd a b)
  | BOp.sub, a, b => Except.ok (pySub a b)
  | BOp.mul, a, b => Except.ok (pyMul a b)
  | BOp.div, a, b =>
    if toQ b = 0 then Except.error EvalErr.zeroDiv
    else Except.ok (PyNum.float (toQ a / toQ b))
  | BOp.floorDiv, PyNum.int a, PyNum.int b =>
    if b = 0 then Except.error EvalErr.zeroDiv
    else Except.ok (PyNum.int (Int.fdiv a b))
  | BOp.floorDiv, a, b =>
    if toQ b = 0 then Except.error EvalErr.zeroDiv
    else Except.ok (PyNum.float ((⌊toQ a / toQ b⌋ : Int) : ℚ))
  | BOp.mod, PyNum.int a, PyNum.int b =>
    if b = 0 then Except.error EvalErr.zeroDiv
    else Except.ok (PyNum.int (Int.fmod a b))
  | BOp.mod, a, b =>
    if toQ b = 0 then Except.error EvalErr.zeroDiv
    else Except.ok (PyNum.float (toQ a - toQ b * ((⌊toQ a / toQ b⌋ : Int) : ℚ)))
  | BOp.pow, PyNum.int a, PyNum.int b =>
    if 0 ≤ b then Except.ok (PyNum.int (a ^ b.toNat))
    else if a = 0 then Except.error EvalErr.zeroDiv
    else Except.ok (PyNum.float ((a : ℚ) ^ b))
  | BOp.pow, a, b =>
    if (toQ b).den = 1 then
      if toQ a = 0 ∧ (toQ b).num < 0 then Except.error EvalErr.zeroDiv
      else Except.ok (PyNum.float (toQ a ^ (toQ b).num))
    else Except.error EvalErr.unsupportedOp

/-- `eval(compile(tree, ...))` on the allow-listed AST. -/
def evalExpr : Expr → Except EvalErr PyNum
  | Expr.const v => Except.ok v
  | Expr.unaryOp UOp.uAdd e => evalExpr e
  | Expr.unaryOp UOp.uSub e => do
    let v ← evalExpr e
    Except.ok (pyNeg v)
  | Expr.binOp op l r => do
    let a ← evalExpr l
    let b ← evalExpr r
    pyBin op a b

/-- `if isinstance(value, float) and value.is_integer(): value = int(value)`
(main.py lines 95-96). -/
def coerceIntegral : PyNum → PyNum
  | PyNum.float q => if q.den = 1 then PyNum.int q.num else PyNum.float q
  | v => v

/-- The magnitude check of the AST walk (main.py lines 88-92): a literal
whose absolute value exceeds `10^12` is rejected, with the error naming the
literal's kind. -/
def litOversize : PyNum → Option EvalErr
  | PyNum.int n => if (10 ^ 12 : Int) < |n| then some EvalErr.intTooLarge else none
  | PyNum.float q => if (10 ^ 12 : ℚ) < |q| then some EvalErr.floatTooLarge else none

/-- The literal-magnitude pass of `for node in ast.walk(tree)` over the
allow-listed AST. -/
def checkLiterals : Expr → Except EvalErr Unit
  | Expr.const v =>
    match litOversize v with
    | some e => Except.error e
    | none => Except.ok ()
  | Expr.unaryOp _ e => checkLiterals e
  | Expr.binOp _ l r =>
    match checkLiterals l with
    | Except.error e => Except.error e
    | Except.ok _ => checkLiterals r

/-- Does the AST hold a literal beyond the magnitude bound? -/
def hasOversizeLit : Expr → Bool
  | Expr.const v => (litOversize v).isSome
  | Expr.unaryOp _ e => hasOversizeLit e
  | Expr.binOp _ l r => hasOversizeLit l || hasOversizeLit r

/-- The characters of the lexical guard (main.py line 57): the ASCII letters,
underscore, brackets, braces, semicolon, colon, backslash and apostrophe. -/
def guardChars : Str :=
  "abcdefghijklmnopqrstuvwxyzABCDEFGHIJKLMNOPQRSTUVWXYZ_[]\x7b\x7d;:\\".toList
    ++ [Char.ofNat 39]

/-! ### Lexing and parsing the guard-surviving grammar -/

/-- The tokens of the restricted grammar. -/
inductive Tok where
  | num (v : PyNum)
  | plus
  | minus
  | star
  | dstar
  | slash
  | dslash
  | percent
  | lparen
  | rparen
deriving DecidableEq, Repr

/-- The numeric value of a run of ASCII digits. -/
def digitsToNat (ds : Str) : Nat := ds.foldl (fun a c => 10 * a + (c.toNat - 48)) 0

/-- The value of a decimal literal `intd . fracd`. -/
def fracVal (intd fracd : Str) : ℚ :=
  (digitsToNat (intd ++ fracd) : ℚ) / (10 : ℚ) ^ fracd.length

/-- Tokenizer (fuelled; each step consumes at least one character, so fuel
`length + 1` always suffices).  Number literals are runs of digits with an
optional decimal point; exponent and radix forms need a letter, which the
guard has already excluded, and underscores are excluded likewise. -/
def lexAux : Nat → Str → Except EvalErr (List Tok)
  | 0, _ => Except.error EvalErr.malformed
  | _ + 1, [] => Except.ok []
  | fuel + 1, c :: rest =>
    if isPySpace c then lexAux fuel rest
    else if c = '+' then (Tok.plus :: ·) <$> lexAux fuel rest
    else if c = '-' then (Tok.minus :: ·) <$> lexAux fuel rest
    else if c = '%' then (Tok.percent :: ·) <$> lexAux fuel rest
    else if c = '(' then (Tok.lparen :: ·) <$> lexAux fuel rest
    else if c = ')' then (Tok.rparen :: ·) <$> lexAux fuel rest
    else if c = '*' then
      match rest with
      | '*' :: r2 => (Tok.dstar :: ·) <$> lexAux fuel r2
      | _ => (Tok.star :: ·) <$> lexAux fuel rest
    else if c = '/' then
      match rest with
      | '/' :: r2 => (Tok.dslash :: ·) <$> lexAux fuel r2
      | _ => (Tok.slash :: ·) <$> lexAux fuel rest
    else if c.isDigit || c = '.' then
      let intd := (c :: rest).takeWhile Char.isDigit
      let r1 := (c :: rest).dropWhile Char.isDigit
      match r1 with
      | '.' :: r2 =>
        let fracd := r2.takeWhile Char.isDigit
        let r3 := r2.dropWhile Char.isDigit
        if intd = [] && fracd = [] then Except.error EvalErr.malformed
        else (Tok.num (PyNum.float (fracVal intd fracd)) :: ·) <$> lexAux fuel r3
      | _ => (Tok.num (PyNum.int (digitsToNat intd)) :: ·) <$> lexAux fuel r1
    else Except.error EvalErr.malformed

/-- Tokenize a whole string. -/
def lex (l : Str) : Except EvalErr (List Tok) := lexAux (l.length + 1) l

mutual

/-- Additive level: terms separated by `+`/`-`, left-associative. -/
def parseAddF : Nat → List Tok → Except EvalErr (Expr × List Tok)
  | 0, _ => Except.error EvalErr.malformed
  | fuel + 1, ts => do
    let (a, r) ← parseMulF fuel ts
    parseAddLoop fuel a r

/-- The left-associative fold of the additive level. -/
def parseAddLoop : Nat → Expr → List Tok → Except EvalErr (Expr × List Tok)
  | 0, _, _ => Except.error EvalErr.malformed
  | fuel + 1, a, Tok.plus :: r => do
    let (b, r2) ← parseMulF fuel r
    parseAddLoop fuel (Expr.binOp BOp.add a b) r2
  | fuel + 1, a, Tok.minus :: r => do
    let (b, r2) ← parseMulF fuel r
    parseAddLoop fuel (Expr.binOp BOp.sub a b) r2
  | _ + 1, a, ts => Except.ok (a, ts)

/-- Multiplicative level: `*`, `/`, `//`, `%`, left-associative. -/
def parseMulF : Nat → List Tok → Except EvalErr (Expr × List Tok)
  | 0, _ => Except.error EvalErr.malformed
  | fuel + 1, ts => do
    let (a, r) ← parseUnaryF fuel ts
    parseMulLoop fuel a r

/-- The left-associative fold of the multiplicative level. -/
def parseMulLoop : Nat → Expr → List Tok → Except EvalErr (Expr × List Tok)
  | 0, _, _ => Except.error EvalErr.malformed
  | fuel + 1, a, Tok.star :: r => do
    let (b, r2) ← parseUnaryF fuel r
    parseMulLoop fuel (Expr.binOp BOp.mul a b) r2
  | fuel + 1, a, Tok.slash :: r => do
    let (b, r2) ← parseUnaryF fuel r
    parseMulLoop fuel (Expr.binOp BOp.div a b) r2
  | fuel + 1, a, Tok.dslash :: r => do
    let (b, r2) ← parseUnaryF fuel r
    parseMulLoop fuel (Expr.binOp BOp.floorDiv a b) r2
  | fuel + 1, a, Tok.percent :: r => do
    let (b, r2) ← parseUnaryF fuel r
    parseMulLoop fuel (Expr.binOp BOp.mod a b) r2
  | _ + 1, a, ts => Except.ok (a, ts)

/-- Unary level (`factor` in Python's grammar): `+`/`-` prefixes bind looser
than `**` on its left. -/
def parseUnaryF : Nat → List Tok → Except EvalErr (Expr × List Tok)
  | 0, _ => Except.error EvalErr.malformed
  | fuel + 1, Tok.plus :: r => do
    let (e, r2) ← parseUnaryF fuel r
    Except.ok (Expr.unaryOp UOp.uAdd e, r2)
  | fuel + 1, Tok.minus :: r => do
    let (e, r2) ← parseUnaryF fuel r
    Except.ok (Expr.unaryOp UOp.uSub e, r2)
  | fuel + 1, ts => parsePowF fuel ts

/-- Power level: `**` is right-associative and its exponent is a unary-level
expression (`2 ** -3` parses). -/
def parsePowF : Nat → List Tok → Except EvalErr (Expr × List Tok)
  | 0, _ => Except.error EvalErr.malformed
  | fuel + 1, ts => do
    let (a, r) ← parseAtomF fuel ts
    match r with
    | Tok.dstar :: r2 => do
      let (b, r3) ← parseUnaryF fuel r2
      Except.ok (Expr.binOp BOp.pow a b, r3)
    | _ => Except.ok (a, r)

/-- Atoms: a numeric literal or a parenthesized expression. -/
def parseAtomF : Nat → List Tok → Except EvalErr (Expr × List Tok)
  | 0, _ => Except.error EvalErr.malformed
  | _ + 1, Tok.num v :: r => Except.ok (Expr.const v, r)
  | fuel + 1, Tok.lparen :: r => do
    let (e, r2) ← parseAddF fuel r
    match r2 with
    | Tok.rparen :: r3 => Except.ok (e, r3)
    | _ => Except.error EvalErr.malformed
  | _ + 1, _ => Except.error EvalErr.malformed

end

/-- Parse a full token list as one expression (`ast.parse(expr, mode="eval")`
on the restricted grammar); trailing tokens are a syntax error.  The fuel is
ample: between two consumed tokens the parser descends at most six levels. -/
def parseToks (ts : List Tok) : Except EvalErr Expr :=
  match parseAddF (8 * (ts.length + 1)) ts with
  | Except.error e => Except.error e
  | Except.ok (e, []) => Except.ok e
  | Except.ok (_, _ :: _) => Except.error EvalErr.malformed

/-- `_eval_mathops` (main.py lines 53-97): strip; reject the empty string;
reject on the lexical guard; parse; reject oversize literals during the AST
walk; evaluate; coerce an integral float to `int`. -/
def _eval_mathops (input : Str) : Except EvalErr PyNum :=
  let expr := pyStrip input
  if expr = [] then Except.error EvalErr.emptyExpr
  else if guardChars.any (fun c => expr.contains c) then
    Except.error EvalErr.disallowedChars
  else
    match lex expr with
    | Except.error _ => Except.error EvalErr.malformed
    | Except.ok ts =>
      match parseToks ts with
      | Except.error _ => Except.error EvalErr.malformed
      | Except.ok t =>
        match checkLiterals t with
        | Except.error e => Except.error e
        | Except.ok _ =>
          match evalExpr t with
          | Except.error e => Except.error e
          | Except.ok v => Except.ok (coerceIntegral v)

/-! ## Supporting lemmas -/

theorem mem_dropWhile_of_not {p : Char → Bool} {c : Char} :
    ∀ {l : Str}, c ∈ l → p c = false → c ∈ l.dropWhile p
  | [], h, _ => absurd h (List.not_mem_nil c)
  | a :: rest, h, hp => by
    by_cases ha : p a
    · rw [List.dropWhile_cons_of_pos ha]
      rcases List.mem_cons.mp h with rfl | hm
      · rw [hp] at ha; cases ha
      · exact mem_dropWhile_of_not hm hp
    · rw [List.dropWhile_cons_of_neg (by simpa using ha)]
      exact h

theorem mem_pyStrip {c : Char} {l : Str} (hc : c ∈ l) (hs : isPySpace c = false) :
    c ∈ pyStrip l := by
  unfold pyStrip
  rw [List.mem_reverse]
  exact mem_dropWhile_of_not (List.mem_reverse.mpr (mem_dropWhile_of_not hc hs)) hs

/-- An ASCII alphabetic character is in the lexical guard's character list and
is not whitespace. -/
theorem alpha_in_guard {c : Char} (h : c.isAlpha = true) :
    c ∈ guardChars ∧ isPySpace c = false := by
  have hb : (65 ≤ c.toNat ∧ c.toNat ≤ 90) ∨ (97 ≤ c.toNat ∧ c.toNat ≤ 122) := by
    simp only [Char.isAlpha, Char.isUpper, Char.isLower, Bool.or_eq_true,
      Bool.and_eq_true, decide_eq_true_eq] at h
    rcases h with ⟨h1, h2⟩ | ⟨h1, h2⟩
    · exact Or.inl ⟨h1, h2⟩
    · exact Or.inr ⟨h1, h2⟩
  have hall : ∀ n, n < 128 → ((65 ≤ n ∧ n ≤ 90) ∨ (97 ≤ n ∧ n ≤ 122)) →
      Char.ofNat n ∈ guardChars ∧ isPySpace (Char.ofNat n) = false := by decide
  have hlt : c.toNat < 128 := by omega
  have := hall c.toNat hlt hb
  rwa [Char.ofNat_toNat] at this

theorem checkLiterals_ok_of_small :
    ∀ t : Expr, hasOversizeLit t = false → checkLiterals t = Except.ok ()
  | Expr.const v, h => by
    simp only [hasOversizeLit] at h
    unfold checkLiterals
    cases he : litOversize v with
    | none => rfl
    | some e => rw [he] at h; simp at h
  | Expr.unaryOp op e, h => checkLiterals_ok_of_small e (by simpa [hasOversizeLit] using h)
  | Expr.binOp op l r, h => by
    simp only [hasOversizeLit, Bool.or_eq_false_iff] at h
    unfold checkLiterals
    rw [checkLiterals_ok_of_small l h.1, checkLiterals_ok_of_small r h.2]

theorem checkLiterals_error_of_oversize :
    ∀ t : Expr, hasOversizeLit t = true →
      ∃ e, (e = EvalErr.intTooLarge ∨ e = EvalErr.floatTooLarge) ∧
        checkLiterals t = Except.error e
  | Expr.const v, h => by
    simp only [hasOversizeLit, Option.isSome_iff_exists] at h
    obtain ⟨e, he⟩ := h
    refine ⟨e, ?_, ?_⟩
    · cases v with
      | int n =>
        simp only [litOversize] at he
        split at he
        · exact Or.inl (Option.some_injective _ he).symm
        · cases he
      | float q =>
        simp only [litOversize] at he
        split at he
        · exact Or.inr (Option.some_injective _ he).symm
        · cases he
    · unfold checkLiterals
      rw [he]
  | Expr.unaryOp op e, h =>
    checkLiterals_error_of_oversize e (by simpa [hasOversizeLit] using h)
  | Expr.binOp op l r, h => by
    unfold checkLiterals
    cases hl : hasOversizeLit l with
    | true =>
      obtain ⟨e, he, hc⟩ := checkLiterals_error_of_oversize l hl
      exact ⟨e, he, by rw [hc]⟩
    | false =>
      have hr : hasOversizeLit r = true := by
        simpa [hasOversizeLit, hl] using h
      obtain ⟨e, he, hc⟩ := checkLiterals_error_of_oversize r hr
      exact ⟨e, he, by rw [checkLiterals_ok_of_small l hl, hc]⟩

theorem findTriggerMode_eq_find? (modes : List Mode) (b : Str) :
    findTriggerMode modes b = modes.find? (fun m => m.trigger.contains b) := by
  induction modes with
  | nil => rfl
  | cons m rest ih =>
    cases h : m.trigger.contains b with
    | true =>
      have h' : b ∈ m.trigger := by simpa using h
      simp [findTriggerMode, List.find?, h, h']
    | false =>
      have h' : b ∉ m.trigger := by simpa using h
      simp [findTriggerMode, List.find?, h, h', ih]

theorem findTriggerMode_eq_none {modes : List Mode} {b : Str}
    (h : ∀ m ∈ modes, m.trigger.contains b = false) :
    findTriggerMode modes b = none := by
  induction modes with
  | nil => rfl
  | cons m rest ih =>
    have hm := h m (List.mem_cons_self _ _)
    simp only [findTriggerMode, hm, Bool.false_eq_true, if_false]
    exact ih fun d hd => h d (List.mem_cons_of_mem _ hd)

theorem findPrefixMode_eq_find? (modes : List Mode) (b : Str) :
    findPrefixMode modes b = modes.find? (fun m => modePrefixMatch m b) := by
  induction modes with
  | nil => rfl
  | cons m rest ih =>
    cases h : modePrefixMatch m b with
    | true => simp [findPrefixMode, List.find?, h]
    | false => simp [findPrefixMode, List.find?, h, ih]

/-! ## Sample configuration used by the witnesses -/

/-- A default mode with no triggers (like the scenario's `DEFAULT`). -/
def sampleDefault : Mode :=
  ⟨"DEFAULT", "http://localhost/scan", "POST", false, [], [], false, none, true, false⟩

/-- A mode with an exact trigger `SW` and a stripped prefix `X-` (the
scenario's `SCAN`). -/
def sampleScan : Mode :=
  ⟨"SCAN", "http://localhost/scan", "POST", false, [['S', 'W']], [['X', '-']],
    true, none, true, false⟩

/-- A mode whose exact trigger `SW` overlaps its own prefix trigger `S`. -/
def sampleOverlap : Mode :=
  ⟨"OVR", "http://localhost/scan", "POST", false, [['S', 'W']], [['S']],
    true, none, true, false⟩

/-- A session currently in `sampleScan` with a live timer of generation 0. -/
def sampleState : SessionState := ⟨sampleScan, some 0, 1⟩

/-! ## The claims -/

/-- C1 (counterexample): the claim asserts `evaluate("2**50")` returns
`EvalError` because `2^50 > 10^12`, but the magnitude check of
`_eval_mathops` inspects only `Constant` nodes (the literals 2 and 50, both
within the bound) and no check is applied to computed values, so the
evaluation succeeds and returns `2^50`. -/
theorem pow_fifty_not_rejected :
    _eval_mathops ("2**50".toList) = Except.ok (PyNum.int 1125899906842624) := by
  rfl

/-- C1 (amended): `_eval_mathops` rejects any expression one of whose parsed
numeric literals has absolute magnitude exceeding `10^12`, with an
integer-too-large or float-too-large error; the bound applies to literals
only, never to computed results. -/
theorem literal_magnitude_bound (input : Str) (ts : List Tok) (t : Expr)
    (hne : pyStrip input ≠ [])
    (hguard : guardChars.any (fun c => (pyStrip input).contains c) = false)
    (hlex : lex (pyStrip input) = Except.ok ts)
    (hparse : parseToks ts = Except.ok t)
    (hbig : hasOversizeLit t = true) :
    ∃ e, (e = EvalErr.intTooLarge ∨ e = EvalErr.floatTooLarge) ∧
      _eval_mathops input = Except.error e := by
  obtain ⟨e, he, hc⟩ := checkLiterals_error_of_oversize t hbig
  refine ⟨e, he, ?_⟩
  unfold _eval_mathops
  simp only [if_neg hne, hguard, Bool.false_eq_true, if_false, hlex, hparse, hc]

/-- C1 witness: the oversize literal `9 * 10^12` is rejected. -/
theorem literal_magnitude_bound_witness :
    ∃ e, (e = EvalErr.intTooLarge ∨ e = EvalErr.floatTooLarge) ∧
      _eval_mathops ("9000000000000".toList) = Except.error e :=
  literal_magnitude_bound ("9000000000000".toList)
    [Tok.num (PyNum.int 9000000000000)]
    (Expr.const (PyNum.int 9000000000000))
    (by decide) (by decide) (by rfl) (by rfl) (by decide)

/-- C2: a prefix-triggered (ephemeral) match leaves the whole session state —
`current_mode`, the pending idle timer and the timer generation counter —
exactly as it was, whatever the dispatch outcome. -/
theorem ephemeral_preserves_state (idleTimeout : Option Int) (defaultMode : Mode)
    (modes : List Mode) (s : SessionState) (barcode residual : Str) (tm : Mode)
    (o : Outcome)
    (h : resolveToken modes barcode = some (tm, MatchKind.prefixKind, residual)) :
    (processToken idleTimeout defaultMode modes s barcode o).1 = s := by
  unfold processToken
  rw [h]

/-- C2 witness: an `X-`-prefixed scan under a live timer changes nothing. -/
theorem ephemeral_preserves_state_witness :
    (processToken (some 5) sampleDefault [sampleScan] sampleState
      (['X', '-', '1', '2', '3', '4', '5']) Outcome.raised).1 = sampleState :=
  ephemeral_preserves_state (some 5) sampleDefault [sampleScan] sampleState
    (['X', '-', '1', '2', '3', '4', '5']) (['1', '2', '3', '4', '5']) sampleScan
    Outcome.raised (by decide)

/-- C3: if the timer callback fires when `current_mode` already equals the
default mode, it is a no-op — the state is unchanged and no
`mode_auto_revert` event is emitted; the revert happens only when the
current mode differs from the default at fire time. -/
theorem timer_fire_noop_at_default (defaultMode : Mode) (reason : String)
    (s : SessionState) (h : s.currentMode.name = defaultMode.name) :
    _do_timeout defaultMode reason s = (s, []) := by
  unfold _do_timeout
  simp [h]

/-- C3 witness: a stale fire after a manual revert to the default mode. -/
theorem timer_fire_noop_at_default_witness :
    _do_timeout sampleDefault "inactivity" ⟨sampleDefault, none, 3⟩ =
      (⟨sampleDefault, none, 3⟩, []) :=
  timer_fire_noop_at_default sampleDefault "inactivity" ⟨sampleDefault, none, 3⟩ rfl

/-- C4: when some mode's `trigger` set contains the token, resolution returns
the first such mode in iteration order (`List.find?`) as an exact trigger
match, regardless of any prefix overlap. -/
theorem exact_trigger_precedence (modes : List Mode) (token : Str) (m : Mode)
    (h : modes.find? (fun mo => mo.trigger.contains token) = some m) :
    resolveToken modes token = some (m, MatchKind.triggerKind, token) := by
  have h1 : findTriggerMode modes token = some m := by
    rw [findTriggerMode_eq_find?]; exact h
  have h2 : token ∈ m.trigger := by
    have := List.find?_some h
    simpa using this
  unfold resolveToken find_mode
  rw [h1]
  simp [h2]

/-- C4 witness: `SW` is both an exact trigger and starts with the prefix `S`
of the same mode; the exact trigger wins. -/
theorem exact_trigger_precedence_witness :
    resolveToken [sampleOverlap] (['S', 'W']) =
      some (sampleOverlap, MatchKind.triggerKind, ['S', 'W']) :=
  exact_trigger_precedence [sampleOverlap] (['S', 'W']) sampleOverlap (by decide)

/-- C5: with no exact trigger match anywhere and a configured prefix match,
resolution returns the first matching mode with a prefix match; the matched
prefix is the first matching entry of that mode's `prefix_trigger`, and the
residual token is the suffix after the prefix iff `strip_prefix` is set,
else the original token. -/
theorem prefix_resolution_residual (modes : List Mode) (token : Str) (m : Mode)
    (p rest : Str)
    (hno : ∀ mo ∈ modes, mo.trigger.contains token = false)
    (hm : modes.find? (fun mo => modePrefixMatch mo token) = some m)
    (hp : m.prefixTrigger.find? (fun q => q.isPrefixOf token) = some p)
    (hsplit : token = p ++ rest) :
    resolveToken modes token =
      some (m, MatchKind.prefixKind, if m.stripPrefix then rest else token) := by
  have h1 : findTriggerMode modes token = none := findTriggerMode_eq_none hno
  have h2 : findPrefixMode modes token = some m := by
    rw [findPrefixMode_eq_find?]; exact hm
  have hmem : m ∈ modes := List.mem_of_find?_eq_some hm
  have h3 : m.trigger.contains token = false := hno m hmem
  have hdrop : token.drop p.length = rest := by
    rw [hsplit, List.drop_left]
  unfold resolveToken find_mode
  rw [h1, h2]
  simp only [h3, Bool.false_eq_true, if_false, hp, hdrop]

/-- C5 witness: `X-12345` under `sampleScan` (strip_prefix set) resolves as
an ephemeral match with residual `12345`. -/
theorem prefix_resolution_residual_witness :
    resolveToken [sampleScan] (['X', '-', '1', '2', '3', '4', '5']) =
      some (sampleScan, MatchKind.prefixKind,
        if sampleScan.stripPrefix then ['1', '2', '3', '4', '5']
        else ['X', '-', '1', '2', '3', '4', '5']) :=
  prefix_resolution_residual [sampleScan] (['X', '-', '1', '2', '3', '4', '5'])
    sampleScan (['X', '-']) (['1', '2', '3', '4', '5'])
    (by decide) (by decide) (by decide) (by decide)

/-- C6: after an exact trigger match for the default mode no idle timer is
live, and after an exact trigger match for a non-default mode with an idle
timeout configured exactly one idle timer is live — the freshly scheduled
generation `s.nextId`, so any previously pending timer is cancelled.  The
hypothesis `hinv` is the reachability invariant that with no configured
timeout no timer is ever scheduled (`schedule_timeout` is the only scheduler
and returns early then). -/
theorem trigger_match_timer_state (idleTimeout : Option Int) (defaultMode : Mode)
    (modes : List Mode) (s : SessionState) (barcode res : Str) (tm : Mode)
    (o : Outcome)
    (hres : resolveToken modes barcode = some (tm, MatchKind.triggerKind, res))
    (hinv : timeoutEnabled idleTimeout = false → s.idleTimer = none) :
    (tm.name = defaultMode.name →
      (processToken idleTimeout defaultMode modes s barcode o).1.idleTimer = none) ∧
    (tm.name ≠ defaultMode.name → timeoutEnabled idleTimeout = true →
      (processToken idleTimeout defaultMode modes s barcode o).1.idleTimer =
        some s.nextId) := by
  have hstate : (processToken idleTimeout defaultMode modes s barcode o).1 =
      schedule_timeout idleTimeout defaultMode { s with currentMode := tm } := by
    unfold processToken
    rw [hres]
    cases htr : tm.enableTriggerReq <;> simp [htr]
  rw [hstate]
  constructor
  · intro hname
    unfold schedule_timeout cancel_timer
    cases hen : timeoutEnabled idleTimeout with
    | false => simpa using hinv hen
    | true => simp [hname]
  · intro hname hen
    unfold schedule_timeout cancel_timer
    simp [hen, hname]

/-- C6 witness: from the default mode with no pending timer, the trigger
`SW` switches to `SCAN` and schedules the fresh timer generation 0. -/
theorem trigger_match_timer_state_witness :
    (sampleScan.name = sampleDefault.name →
      (processToken (some 5) sampleDefault [sampleScan] ⟨sampleDefault, none, 0⟩
        (['S', 'W']) Outcome.success).1.idleTimer = none) ∧
    (sampleScan.name ≠ sampleDefault.name → timeoutEnabled (some 5) = true →
      (processToken (some 5) sampleDefault [sampleScan] ⟨sampleDefault, none, 0⟩
        (['S', 'W']) Outcome.success).1.idleTimer = some 0) :=
  trigger_match_timer_state (some 5) sampleDefault [sampleScan]
    ⟨sampleDefault, none, 0⟩ (['S', 'W']) (['S', 'W']) sampleScan Outcome.success
    (by decide) (by decide)

/-- C7: the dispatch outcome (success, non-success status, or raised
exception) never affects the session state: the state after processing a
token equals the state after processing it with a successful dispatch. -/
theorem dispatch_outcome_independent (idleTimeout : Option Int)
    (defaultMode : Mode) (modes : List Mode) (s : SessionState) (barcode : Str)
    (o : Outcome) :
    (processToken idleTimeout defaultMode modes s barcode o).1 =
      (processToken idleTimeout defaultMode modes s barcode Outcome.success).1 := by
  unfold processToken
  cases hres : resolveToken modes barcode with
  | none => rfl
  | some v =>
    obtain ⟨tm, k, r⟩ := v
    cases k with
    | triggerKind => cases htr : tm.enableTriggerReq <;> simp [htr]
    | prefixKind => rfl

/-- C8: any input containing an ASCII alphabetic character is rejected by
the lexical guard (`disallowedChars`, raised by the character scan at
main.py line 57) before `ast.parse` is reached: stripping preserves the
letter, so the stripped text is non-empty and the guard scan fires first. -/
theorem alpha_guard_rejects (input : Str) (c : Char) (hc : c ∈ input)
    (ha : c.isAlpha = true) :
    _eval_mathops input = Except.error EvalErr.disallowedChars := by
  obtain ⟨hg, hs⟩ := alpha_in_guard ha
  have hmem : c ∈ pyStrip input := mem_pyStrip hc hs
  have hne : pyStrip input ≠ [] := List.ne_nil_of_mem hmem
  have hguard : guardChars.any (fun g => (pyStrip input).contains g) = true := by
    rw [List.any_eq_true]
    exact ⟨c, hg, by simpa using hmem⟩
  unfold _eval_mathops
  simp only [if_neg hne, hguard, if_true]

/-- C8 witness: `import os` is rejected by the guard. -/
theorem alpha_guard_rejects_witness :
    _eval_mathops ("import os".toList) = Except.error EvalErr.disallowedChars :=
  alpha_guard_rejects ("import os".toList) 'i' (by decide) (by decide)

/-- C9: sanitization is idempotent and total (a total Lean function of type
`Str → Str`, matching a Python body with no failure path): a sanitized
string holds no escape character, so neither the CSI substitution nor the
escape removal changes it again. -/
theorem sanitize_idempotent_total (x : Str) :
    sanitize_input (sanitize_input x) = sanitize_input x := by
  by_cases hx : x = []
  · simp [sanitize_input, hx]
  · simp only [sanitize_input, if_neg hx]
    by_cases hy : removeEsc (csiSub x) = []
    · simp [hy]
    · simp only [if_neg hy]
      rw [csiSub_of_no_esc _ (removeEsc_no_esc (csiSub x)),
        removeEsc_of_no_esc _ (removeEsc_no_esc (csiSub x))]

/-- C10: an input line that is empty, whitespace-only, or reduced to the
empty string by sanitization is skipped before resolution and dispatch:
the state is returned unchanged and no event is emitted. -/
theorem blank_line_no_effect (idleTimeout : Option Int) (defaultMode : Mode)
    (modes : List Mode) (s : SessionState) (line : Str) (o : Outcome)
    (h : sanitize_input (pyStrip line) = []) :
    processLine idleTimeout defaultMode modes s line o = (s, []) := by
  unfold processLine
  simp only [h, if_true]

/-- C10 witness: a line holding only an ANSI clear-screen sequence and
whitespace is skipped with the session untouched. -/
theorem blank_line_no_effect_witness :
    processLine (some 5) sampleDefault [sampleScan] sampleState
      ("  \x1b[2J  ".toList) Outcome.success = (sampleState, []) :=
  blank_line_no_effect (some 5) sampleDefault [sampleScan] sampleState
    ("  \x1b[2J  ".toList) Outcome.success (by decide)

end ScannerCLI
